import Mathlib

/-!
# Verification of the open-fps persistence backend

Shallow embedding of `src/src-tauri/src/commands.rs`:

* the **Pixel Codec** (`read_png_rgba`, `write_png_rgba`): conversion between
  an encoded PNG raster image and a flat RGBA byte buffer;
* the **Recent-Items Registry** (`list_recent_projects`, `add_recent_project`,
  `remove_recent_project`): the bounded, deduplicated most-recent-first list
  persisted in `recent_projects.json`;
* the **Document Store** (`create_project`, `save_project_metadata`,
  `is_valid_project`): project-root directory layout on a small filesystem
  model.

Bytes are modelled as `Nat` (the code only moves 8-bit samples around and
never does arithmetic on them); `u32` arithmetic is modelled as `Nat`
arithmetic reduced modulo `2 ^ 32` exactly where the Rust program multiplies
`u32` values.  Fallible operations return `Except`.  Filesystem effects are
modelled by explicit state passing; each registry operation also reports
whether it executed an `fs::write` on the list file.
-/

namespace OpenFps

/-! ## Pixel codec: data model -/

/-- The PNG color types the `png` crate can report (`png::ColorType`).
The Rust match in `read_png_rgba` handles `Rgba`, `Rgb`, `GrayscaleAlpha`
and `Grayscale`; `Indexed` falls into the catch-all unsupported arm. -/
inductive ColorType where
  | grayscale
  | rgb
  | indexed
  | grayscaleAlpha
  | rgba
  deriving DecidableEq, Repr

/-- Bytes per pixel of a source encoding at bit depth 8 (the decoder's
`info.buffer_size()` is `width * height * bpp`). -/
def ColorType.bpp : ColorType → Nat
  | .grayscale => 1
  | .rgb => 3
  | .indexed => 1
  | .grayscaleAlpha => 2
  | .rgba => 4

/-- Errors of the codec paths, corresponding to the `Err(String)` returns of
`read_png_rgba` and `write_png_rgba`. -/
inductive CodecError where
  /-- `Unsupported PNG color type: ...` -/
  | unsupportedFormat (ct : ColorType)
  /-- `Pixel data length mismatch: expected {}, got {}` -/
  | dimensionMismatch (expected actual : Nat)
  deriving DecidableEq, Repr

/-- An encoded raster image: dimensions, source color encoding, and the raw
sample bytes (the decoder's output buffer, one `Nat` per 8-bit sample). -/
structure Image where
  width : Nat
  height : Nat
  colorType : ColorType
  data : List Nat
  deriving DecidableEq, Repr

/-- A raster image is well-formed when its sample-byte count matches its
declared dimensions, as the `png` decoder guarantees (`info.buffer_size()`). -/
def Image.wf (img : Image) : Prop :=
  img.data.length = img.width * img.height * img.colorType.bpp

/-! ## Pixel codec: decode (`read_png_rgba`, commands.rs lines 322-390) -/

/-- `for chunk in rgb.chunks(3) { push chunk[0]; chunk[1]; chunk[2]; 255 }`.
The Rust loop indexes `chunk[1]` and `chunk[2]`, which requires every chunk
to be complete; the decoder guarantees this (`buffer_size = w*h*3`), so the
catch-all arm for a short trailing chunk is never reached on decoder output. -/
def rgbToRgba : List Nat → List Nat
  | r :: g :: b :: rest => r :: g :: b :: 255 :: rgbToRgba rest
  | _ => []

/-- `for chunk in ga.chunks(2) { let gray = chunk[0]; let alpha = chunk[1];
push gray; gray; gray; alpha }`; same remark about complete chunks. -/
def gaToRgba : List Nat → List Nat
  | g :: a :: rest => g :: g :: g :: a :: gaToRgba rest
  | _ => []

/-- `for &gray in g { push gray; gray; gray; 255 }`. -/
def gToRgba : List Nat → List Nat
  | g :: rest => g :: g :: g :: 255 :: gToRgba rest
  | [] => []

/-- The conversion applied by the `match info.color_type` in `read_png_rgba`,
as a total function on the supported arms (`[]` on the unsupported one). -/
def decodeRaw : ColorType → List Nat → List Nat
  | .rgba, buf => buf
  | .rgb, buf => rgbToRgba buf
  | .grayscaleAlpha, buf => gaToRgba buf
  | .grayscale, buf => gToRgba buf
  | .indexed, _ => []

/-- `read_png_rgba`, from the point where the PNG frame has been decoded into
`buf` with color type `ct`: the normalization of the four supported source
encodings to RGBA, or `UnsupportedFormat` otherwise.  (The base64 transport
encoding of the result and the file I/O around it are outside the model.) -/
def read_png_rgba (ct : ColorType) (buf : List Nat) : Except CodecError (List Nat) :=
  match ct with
  | .rgba => .ok buf
  | .rgb => .ok (rgbToRgba buf)
  | .grayscaleAlpha => .ok (gaToRgba buf)
  | .grayscale => .ok (gToRgba buf)
  | .indexed => .error (.unsupportedFormat .indexed)

/-! ## Pixel codec: encode (`write_png_rgba`, commands.rs lines 397-451) -/

/-- `let expected_len = (width * height * 4) as usize;` with `width height :
u32`: both multiplications are performed in `u32`, hence reduced modulo
`2 ^ 32` (release-profile wrapping semantics); the `as usize` widening that
follows is lossless. -/
def expectedLen (width height : Nat) : Nat :=
  (width * height % 2 ^ 32) * 4 % 2 ^ 32

/-- `write_png_rgba`, from the point where the base64 payload has been decoded
into `pixels`: the dimension check, then the PNG encode.  A successful call
creates the output file; the `png` crate encodes 8-bit RGBA losslessly, so the
written image is modelled as an `Image` carrying the pixel bytes unchanged,
with `ColorType::Rgba` and `BitDepth::Eight` as set on the encoder.  An error
return produces no image file (`File::create` happens after the check). -/
def write_png_rgba (pixels : List Nat) (width height : Nat) : Except CodecError Image :=
  if pixels.length ≠ expectedLen width height then
    .error (.dimensionMismatch (expectedLen width height) pixels.length)
  else
    .ok ⟨width, height, .rgba, pixels⟩

/-! ## Filesystem model (document store) -/

/-- The project metadata file name, `PROJECT_FILE` in commands.rs. -/
def PROJECT_FILE : String := "project.json"

/-- `PathBuf::join` for the single-component joins the code performs. -/
def joinPath (root name : String) : String :=
  root ++ "/" ++ name

/-- A small filesystem state: the set of directory paths that exist and the
files that exist with their text content.  Only the paths the document store
touches matter; ancestor directories created implicitly by `create_dir_all`
are not tracked separately. -/
structure FS where
  dirs : List String
  files : List (String × String)
  deriving Repr

/-- `Path::exists` restricted to directories. -/
def FS.existsDir (fs : FS) (p : String) : Bool :=
  decide (p ∈ fs.dirs)

/-- `Path::exists` restricted to files. -/
def FS.existsFile (fs : FS) (p : String) : Bool :=
  decide (p ∈ fs.files.map Prod.fst)

/-- `Path::exists`: the path exists as a directory or as a file. -/
def FS.pathExists (fs : FS) (p : String) : Bool :=
  fs.existsDir p || fs.existsFile p

/-- `fs::create_dir_all(p)`: afterwards the directory exists. -/
def FS.createDirAll (fs : FS) (p : String) : FS :=
  { fs with dirs := p :: fs.dirs }

/-- `fs::write(p, c)`: creates or replaces the file at `p` with content `c`. -/
def FS.writeFile (fs : FS) (p c : String) : FS :=
  { fs with files := (p, c) :: fs.files.filter (fun q => q.1 ≠ p) }

/-- Content of the file at `p`, if it exists. -/
def FS.readFile (fs : FS) (p : String) : Option String :=
  (fs.files.find? (fun q => q.1 = p)).map Prod.snd

/-- `ensure_project_folder` (commands.rs lines 16-22): create the project
directory if the path does not yet exist. -/
def ensure_project_folder (fs : FS) (path : String) : FS :=
  if fs.pathExists path then fs else fs.createDirAll path

/-- `is_valid_project` (commands.rs lines 43-46): a root is a valid project
iff `root/project.json` exists. -/
def is_valid_project (fs : FS) (projectPath : String) : Bool :=
  fs.existsFile (joinPath projectPath PROJECT_FILE)

/-- `create_project` (commands.rs lines 121-135): ensure the project folder,
create the `assets` subfolder if absent, then write the metadata verbatim to
`project.json`. -/
def create_project (fs : FS) (projectPath metadata : String) : FS :=
  let fs1 := ensure_project_folder fs projectPath
  let assetsPath := joinPath projectPath "assets"
  let fs2 := if fs1.pathExists assetsPath then fs1 else fs1.createDirAll assetsPath
  fs2.writeFile (joinPath projectPath PROJECT_FILE) metadata

/-- `save_project_metadata` (commands.rs lines 87-92): ensure the project
folder, then write the metadata verbatim to `project.json` (no assets
subfolder on this path). -/
def save_project_metadata (fs : FS) (projectPath data : String) : FS :=
  let fs1 := ensure_project_folder fs projectPath
  fs1.writeFile (joinPath projectPath PROJECT_FILE) data

/-! ## Recent-items registry (commands.rs lines 162-261)

The persisted `recent_projects.json` is modelled by its three observable
states: absent, present but unparseable as a JSON string array, or present
and parsed to a list of path strings. -/

/-- State of the `recent_projects.json` file. -/
inductive RecentFile where
  | absent
  | corrupt
  | stored (paths : List String)
  deriving DecidableEq, Repr

/-- Registry errors surfaced to the caller. -/
inductive RegError where
  /-- `Failed to parse recent projects: ...` -/
  | parseFailure
  deriving DecidableEq, Repr

/-- The lenient load used by the mutating operations:
`serde_json::from_str(&content).unwrap_or_default()` on an existing file,
`Vec::new()` on an absent one. -/
def loadLenient : RecentFile → List String
  | .absent => []
  | .corrupt => []
  | .stored paths => paths

/-- Result of a mutating registry operation: the new state of the list file
and whether an `fs::write` of that file was executed. -/
structure MutResult where
  state : RecentFile
  wrote : Bool
  deriving DecidableEq, Repr

/-- Result of the query operation: the (unchanged) state of the list file,
whether it was written, and the returned value. -/
structure QueryResult where
  state : RecentFile
  wrote : Bool
  ret : Except RegError (List String)
  deriving Repr

/-- `list_recent_projects` (lines 162-187): absent file yields `Ok([])`; an
unparseable file propagates the serde error (`map_err` + `?`, in contrast to
the mutating operations' `unwrap_or_default`); otherwise the stored entries
are filtered by `is_valid_project` in stored order.  No write is performed. -/
def list_recent_projects (fs : FS) (s : RecentFile) : QueryResult :=
  match s with
  | .absent => ⟨s, false, .ok []⟩
  | .corrupt => ⟨s, false, .error .parseFailure⟩
  | .stored paths => ⟨s, false, .ok (paths.filter (fun p => is_valid_project fs p))⟩

/-- `add_recent_project` (lines 192-234): load leniently, `retain` everything
different from `project_path`, `insert(0, project_path)`, `truncate(10)`,
write back. -/
def add_recent_project (s : RecentFile) (projectPath : String) : MutResult :=
  let paths := loadLenient s
  let paths := paths.filter (fun p => p ≠ projectPath)
  let paths := projectPath :: paths
  let paths := paths.take 10
  ⟨.stored paths, true⟩

/-- `remove_recent_project` (lines 239-261): return `Ok(())` without touching
anything if the file is absent; otherwise load leniently, `retain` everything
different from `project_path`, and write back unconditionally. -/
def remove_recent_project (s : RecentFile) (projectPath : String) : MutResult :=
  match s with
  | .absent => ⟨.absent, false⟩
  | s => ⟨.stored ((loadLenient s).filter (fun p => p ≠ projectPath)), true⟩

/-- List-file states reachable from the empty registry (no persisted file)
by `add_recent_project` and `remove_recent_project`. -/
inductive Reachable : RecentFile → Prop where
  | empty : Reachable .absent
  | touch (s : RecentFile) (ref : String) :
      Reachable s → Reachable (add_recent_project s ref).state
  | remove (s : RecentFile) (ref : String) :
      Reachable s → Reachable (remove_recent_project s ref).state

/-! ## Codec lemmas -/

theorem gToRgba_length (l : List Nat) : (gToRgba l).length = 4 * l.length := by
  induction l with
  | nil => rfl
  | cons g rest ih => simp only [gToRgba, List.length_cons, ih]; omega

theorem rgbToRgba_length (n : Nat) (l : List Nat) (hl : l.length = 3 * n) :
    (rgbToRgba l).length = 4 * n := by
  induction n generalizing l with
  | zero =>
    cases l with
    | nil => rfl
    | cons a t => simp at hl
  | succ n ih =>
    rcases l with _ | ⟨a, l⟩
    · simp at hl
    rcases l with _ | ⟨b, l⟩
    · simp at hl; omega
    rcases l with _ | ⟨c, l⟩
    · simp at hl; omega
    simp only [List.length_cons] at hl
    simp only [rgbToRgba, List.length_cons, ih l (by omega)]
    omega

theorem gaToRgba_length (n : Nat) (l : List Nat) (hl : l.length = 2 * n) :
    (gaToRgba l).length = 4 * n := by
  induction n generalizing l with
  | zero =>
    cases l with
    | nil => rfl
    | cons a t => simp at hl
  | succ n ih =>
    rcases l with _ | ⟨a, l⟩
    · simp at hl
    rcases l with _ | ⟨b, l⟩
    · simp at hl; omega
    simp only [List.length_cons] at hl
    simp only [gaToRgba, List.length_cons, ih l (by omega)]
    omega

theorem read_png_rgba_supported (ct : ColorType) (buf : List Nat)
    (hct : ct ≠ .indexed) :
    read_png_rgba ct buf = .ok (decodeRaw ct buf) := by
  cases ct <;> simp_all [read_png_rgba, decodeRaw]

/-- The output guarantee of `Decode`: a well-formed image in a supported
encoding decodes to a buffer of exactly `width * height * 4` bytes. -/
theorem decodeRaw_length (ct : ColorType) (w h : Nat) (data : List Nat)
    (hct : ct ≠ .indexed) (hwf : data.length = w * h * ct.bpp) :
    (decodeRaw ct data).length = w * h * 4 := by
  cases ct
  case grayscale =>
    simp only [decodeRaw, gToRgba_length]
    simp only [ColorType.bpp] at hwf
    omega
  case rgb =>
    simp only [decodeRaw]
    rw [rgbToRgba_length (w * h) data (by simp only [ColorType.bpp] at hwf; omega)]
    omega
  case indexed => exact absurd rfl hct
  case grayscaleAlpha =>
    simp only [decodeRaw]
    rw [gaToRgba_length (w * h) data (by simp only [ColorType.bpp] at hwf; omega)]
    omega
  case rgba =>
    simp only [decodeRaw]
    simp only [ColorType.bpp] at hwf
    omega

theorem rgbToRgba_pixels (ps : List (Nat × Nat × Nat)) :
    rgbToRgba ((ps.map (fun p => [p.1, p.2.1, p.2.2])).flatten)
      = (ps.map (fun p => [p.1, p.2.1, p.2.2, 255])).flatten := by
  induction ps with
  | nil => rfl
  | cons p ps ih => simp [rgbToRgba, ih]

theorem gaToRgba_pixels (ps : List (Nat × Nat)) :
    gaToRgba ((ps.map (fun p => [p.1, p.2])).flatten)
      = (ps.map (fun p => [p.1, p.1, p.1, p.2])).flatten := by
  induction ps with
  | nil => rfl
  | cons p ps ih => simp [gaToRgba, ih]

theorem gToRgba_pixels (gs : List Nat) :
    gToRgba gs = (gs.map (fun g => [g, g, g, 255])).flatten := by
  induction gs with
  | nil => rfl
  | cons g gs ih => simp [gToRgba, ih]

/-! ## Claim theorems: pixel codec -/

/-- Claim C1: `Decode` converts each pixel to four bytes: RGBA passes
through unchanged; RGB gets alpha 255 appended after its three samples;
Grayscale+Alpha replicates the gray sample into R, G, B and carries alpha
through; Grayscale replicates the gray sample and sets alpha 255 (so 1x1
gray 200 decodes to [200,200,200,255], 1x1 RGB [10,20,30] to
[10,20,30,255], 1x1 gray=50/alpha=80 to [50,50,50,80]); any other encoding
fails with `UnsupportedFormat`. -/
theorem decode_normalizes_four_encodings :
    (∀ buf : List Nat, read_png_rgba .rgba buf = .ok buf)
  ∧ (∀ ps : List (Nat × Nat × Nat),
      read_png_rgba .rgb ((ps.map (fun p => [p.1, p.2.1, p.2.2])).flatten)
        = .ok ((ps.map (fun p => [p.1, p.2.1, p.2.2, 255])).flatten))
  ∧ (∀ ps : List (Nat × Nat),
      read_png_rgba .grayscaleAlpha ((ps.map (fun p => [p.1, p.2])).flatten)
        = .ok ((ps.map (fun p => [p.1, p.1, p.1, p.2])).flatten))
  ∧ (∀ gs : List Nat,
      read_png_rgba .grayscale gs = .ok ((gs.map (fun g => [g, g, g, 255])).flatten))
  ∧ read_png_rgba .grayscale [200] = .ok [200, 200, 200, 255]
  ∧ read_png_rgba .rgb [10, 20, 30] = .ok [10, 20, 30, 255]
  ∧ read_png_rgba .grayscaleAlpha [50, 80] = .ok [50, 50, 50, 80]
  ∧ (∀ buf : List Nat,
      read_png_rgba .indexed buf = .error (.unsupportedFormat .indexed)) := by
  refine ⟨fun _ => rfl, ?_, ?_, ?_, rfl, rfl, rfl, fun _ => rfl⟩
  · intro ps
    simp [read_png_rgba, rgbToRgba_pixels]
  · intro ps
    simp [read_png_rgba, gaToRgba_pixels]
  · intro gs
    simp [read_png_rgba, gToRgba_pixels]

/-- Claim C2 (amended): `Encode` fails with `DimensionMismatch`, reporting
the expected and actual lengths, if and only if the pixel buffer's byte
length differs from `width * height * 4` computed in 32-bit wrapping
arithmetic (i.e. modulo `2 ^ 32`); when the lengths agree the image is
written.  The check precedes all encoding work, so on failure no output
image is produced (the error branch yields no `Image`). -/
theorem encode_dimension_check (pixels : List Nat) (w h : Nat) :
    (write_png_rgba pixels w h
        = .error (.dimensionMismatch (expectedLen w h) pixels.length)
      ↔ pixels.length ≠ w * h * 4 % 2 ^ 32)
  ∧ (pixels.length = w * h * 4 % 2 ^ 32 →
      write_png_rgba pixels w h = .ok ⟨w, h, .rgba, pixels⟩) := by
  have he : expectedLen w h = w * h * 4 % 2 ^ 32 := by
    rw [expectedLen, Nat.mod_mul_mod]
  rw [write_png_rgba, he]
  by_cases hc : pixels.length = w * h * 4 % 2 ^ 32
  · rw [if_neg (by simp [hc])]
    refine ⟨by simp [hc], fun _ => rfl⟩
  · rw [if_pos hc]
    exact ⟨iff_of_true rfl (by simpa using hc), fun h2 => absurd h2 hc⟩

/-- Witness for C2 at 1x1: a 5-byte buffer is rejected with expected 4,
actual 5; a 4-byte buffer is accepted. -/
theorem encode_dimension_check_witness :
    write_png_rgba [0, 0, 0, 0, 0] 1 1 = .error (.dimensionMismatch 4 5)
  ∧ write_png_rgba [0, 0, 0, 0] 1 1 = .ok ⟨1, 1, .rgba, [0, 0, 0, 0]⟩ :=
  ⟨(encode_dimension_check [0, 0, 0, 0, 0] 1 1).1.mpr (by decide),
   (encode_dimension_check [0, 0, 0, 0] 1 1).2 (by decide)⟩

/-- Counterexample to C2 as stated: at width = height = 2^16 the `u32`
product wraps to 0, so the empty pixel buffer is accepted even though its
length 0 differs from the true mathematical product 2^34. -/
theorem encode_dimension_check_counterexample :
    write_png_rgba [] 65536 65536 = .ok ⟨65536, 65536, .rgba, []⟩
  ∧ ([] : List Nat).length ≠ 65536 * 65536 * 4 := by
  refine ⟨?_, by decide⟩
  rw [write_png_rgba, if_neg]
  simp only [List.length_nil, ne_eq, Decidable.not_not]
  decide

/-- Claim C10: the expected buffer length is computed as
`width * height * 4` in 32-bit unsigned arithmetic, wrapping modulo `2 ^ 32`;
at width = height = 2^16 the dimension check therefore accepts a buffer
whose length does not equal the true mathematical product. -/
theorem expected_len_wraps_modulo_u32 :
    (∀ w h : Nat, expectedLen w h = w * h * 4 % 2 ^ 32)
  ∧ write_png_rgba [] 65536 65536 = .ok ⟨65536, 65536, .rgba, []⟩
  ∧ ([] : List Nat).length ≠ 65536 * 65536 * 4 := by
  refine ⟨fun w h => by rw [expectedLen, Nat.mod_mul_mod], ?_, by decide⟩
  rw [write_png_rgba, if_neg]
  simp only [List.length_nil, ne_eq, Decidable.not_not]
  decide

/-- Claim C5 (amended): for every width and height whose RGBA byte count
`width * height * 4` fits in 32 bits, and every well-formed source image in
one of the four supported encodings, `Decode` succeeds, `Encode` of the
resulting buffer as RGBA succeeds, and `Decode` of the encoded image yields
the same buffer as the first decode — no premultiplication or scaling is
introduced and the normalization is idempotent after the first
application. -/
theorem decode_encode_decode_roundtrip (ct : ColorType) (data : List Nat)
    (w h : Nat) (hct : ct ≠ .indexed) (hwf : data.length = w * h * ct.bpp)
    (hfit : w * h * 4 < 2 ^ 32) :
    read_png_rgba ct data = .ok (decodeRaw ct data)
  ∧ write_png_rgba (decodeRaw ct data) w h
      = .ok ⟨w, h, .rgba, decodeRaw ct data⟩
  ∧ read_png_rgba .rgba (decodeRaw ct data) = .ok (decodeRaw ct data) := by
  refine ⟨read_png_rgba_supported ct data hct, ?_, rfl⟩
  have hlen : (decodeRaw ct data).length = w * h * 4 :=
    decodeRaw_length ct w h data hct hwf
  have he : expectedLen w h = w * h * 4 := by
    rw [expectedLen, Nat.mod_mul_mod, Nat.mod_eq_of_lt hfit]
  rw [write_png_rgba, if_neg]
  simp [hlen, he]

/-- Witness for C5 on a 1x1 grayscale image with sample 200. -/
theorem decode_encode_decode_roundtrip_witness :
    read_png_rgba .grayscale [200] = .ok (decodeRaw .grayscale [200])
  ∧ write_png_rgba (decodeRaw .grayscale [200]) 1 1
      = .ok ⟨1, 1, .rgba, decodeRaw .grayscale [200]⟩
  ∧ read_png_rgba .rgba (decodeRaw .grayscale [200])
      = .ok (decodeRaw .grayscale [200]) :=
  decode_encode_decode_roundtrip .grayscale [200] 1 1 (by decide) (by decide)
    (by decide)

/-- Counterexample to C5 as stated: a well-formed 65536 x 65536 grayscale
image decodes, but re-encoding the decoded buffer at the same dimensions
fails with `DimensionMismatch` because the wrapped expected length is 0
while the buffer holds 2^34 bytes — the round trip does not return the
first decode. -/
theorem decode_encode_decode_roundtrip_counterexample :
    read_png_rgba .grayscale (List.replicate (2 ^ 32) 0)
      = .ok (gToRgba (List.replicate (2 ^ 32) 0))
  ∧ (List.replicate (2 ^ 32) (0 : Nat)).length = 65536 * 65536 * 1
  ∧ write_png_rgba (gToRgba (List.replicate (2 ^ 32) 0)) 65536 65536
      = .error (.dimensionMismatch 0 17179869184) := by
  have hlen : (gToRgba (List.replicate (2 ^ 32) (0 : Nat))).length
      = 17179869184 := by
    rw [gToRgba_length, List.length_replicate]; norm_num
  have hexp : expectedLen 65536 65536 = 0 := by decide
  refine ⟨rfl, by rw [List.length_replicate]; norm_num, ?_⟩
  rw [write_png_rgba, if_pos (by rw [hlen, hexp]; decide)]
  rw [hexp, hlen]

/-! ## Registry lemmas -/

/-- `retain` with respect to a reference not in the list keeps every entry. -/
theorem filter_ne_of_not_mem (l : List String) (ref : String) (h : ref ∉ l) :
    l.filter (fun p => p ≠ ref) = l := by
  apply List.filter_eq_self.mpr
  intro a ha
  simp only [ne_eq, decide_eq_true_eq]
  exact fun e => h (e ▸ ha)

/-- The lenient load of a state satisfying the registry invariant is short
and duplicate-free (absent and corrupt states load as `[]`). -/
theorem loadLenient_inv (s : RecentFile)
    (h : ∀ l, s = .stored l → l.length ≤ 10 ∧ l.Nodup) :
    (loadLenient s).length ≤ 10 ∧ (loadLenient s).Nodup := by
  cases s with
  | absent => exact ⟨by simp [loadLenient], List.nodup_nil⟩
  | corrupt => exact ⟨by simp [loadLenient], List.nodup_nil⟩
  | stored l => exact h l rfl

/-! ## Claim theorems: recent-items registry -/

/-- Claim C3: `Touch(ref)` removes `ref` from the persisted list if present
at any position, inserts it at position 0, truncates the result to at most
10 entries, and persists it; consequently Touch(A), Touch(B), Touch(A)
starting from the empty registry yields the list [A, B], with A promoted to
the front and not duplicated. -/
theorem touch_promotes_and_bounds :
    (∀ (s : RecentFile) (ref : String),
      add_recent_project s ref
        = ⟨.stored ((ref :: (loadLenient s).filter (fun p => p ≠ ref)).take 10),
           true⟩)
  ∧ (∀ A B : String, A ≠ B →
      (add_recent_project
        (add_recent_project (add_recent_project .absent A).state B).state
        A).state = .stored [A, B]) := by
  refine ⟨fun s ref => rfl, fun A B hAB => ?_⟩
  simp [add_recent_project, loadLenient, List.filter_cons, hAB, Ne.symm hAB]

/-- Witness for C3 at A = "a", B = "b". -/
theorem touch_promotes_and_bounds_witness :
    (add_recent_project
      (add_recent_project (add_recent_project .absent "a").state "b").state
      "a").state = .stored ["a", "b"] :=
  touch_promotes_and_bounds.2 "a" "b" (by decide)

/-- Claim C4 (amended): `List()` treats an absent persisted list file as an
empty list, but a corrupt/unparseable list file is an error (the parse
failure is propagated to the caller, unlike the mutating operations, which
default it to the empty list); for a parsed list it returns the entries for
which `IsValidProject` still holds, in stored order. -/
theorem list_lenient_only_for_absent (fs : FS) :
    (list_recent_projects fs .absent).ret = .ok []
  ∧ (list_recent_projects fs .corrupt).ret = .error .parseFailure
  ∧ ∀ l, (list_recent_projects fs (.stored l)).ret
      = .ok (l.filter (fun p => is_valid_project fs p)) :=
  ⟨rfl, rfl, fun _ => rfl⟩

/-- Counterexample to C4 as stated: on a corrupt list file, `List()` returns
the parse error, not the empty list. -/
theorem list_corrupt_is_error_counterexample :
    (list_recent_projects ⟨[], []⟩ .corrupt).ret = .error .parseFailure
  ∧ (list_recent_projects ⟨[], []⟩ .corrupt).ret ≠ .ok [] := by
  exact ⟨rfl, by simp [list_recent_projects]⟩

/-- Claim C7: `List()` never mutates the persisted list file: it performs no
write and leaves the state exactly as it was, even when entries whose
project root lacks the metadata document are excluded from the returned
sequence (here "a" is excluded while the stored file still holds
["a", "b"]). -/
theorem list_is_read_only :
    (∀ (fs : FS) (s : RecentFile),
      (list_recent_projects fs s).state = s
      ∧ (list_recent_projects fs s).wrote = false)
  ∧ (list_recent_projects ⟨[], [(joinPath "b" PROJECT_FILE, "m")]⟩
       (.stored ["a", "b"])).ret = .ok ["b"]
  ∧ (list_recent_projects ⟨[], [(joinPath "b" PROJECT_FILE, "m")]⟩
       (.stored ["a", "b"])).state = .stored ["a", "b"] := by
  refine ⟨fun fs s => ?_, ?_, rfl⟩
  · cases s <;> exact ⟨rfl, rfl⟩
  · rfl

/-- Claim C8: `Remove(ref)` removes `ref` from the persisted list if present
and always succeeds: on an absent list file it returns success without
creating the file; in general it persists the list with exactly the entries
different from `ref`; and when `ref` is absent from the list it leaves the
entries unchanged while still rewriting the file. -/
theorem remove_total_and_unconditional_persist :
    (∀ ref : String, remove_recent_project .absent ref = ⟨.absent, false⟩)
  ∧ (∀ (l : List String) (ref : String),
      remove_recent_project (.stored l) ref
        = ⟨.stored (l.filter (fun p => p ≠ ref)), true⟩)
  ∧ (∀ (l : List String) (ref : String), ref ∉ l →
      remove_recent_project (.stored l) ref = ⟨.stored l, true⟩) := by
  refine ⟨fun ref => rfl, fun l ref => rfl, fun l ref h => ?_⟩
  simp only [remove_recent_project, loadLenient, filter_ne_of_not_mem l ref h]

/-- Witness for C8 on the list ["a"] and the absent reference "b". -/
theorem remove_total_and_unconditional_persist_witness :
    remove_recent_project (.stored ["a"]) "b" = ⟨.stored ["a"], true⟩ :=
  remove_total_and_unconditional_persist.2.2 ["a"] "b" (by decide)

/-- Claim C9: every list-file state reachable from the empty registry by
Touch and Remove holds at most 10 entries with no path twice; and Touch of
a reference not in a full 10-entry list drops exactly the oldest (last)
entry, leaving the new reference followed by the first 9 old ones. -/
theorem registry_bound_and_uniqueness :
    (∀ s : RecentFile, Reachable s →
      ∀ l, s = .stored l → l.length ≤ 10 ∧ l.Nodup)
  ∧ (∀ (l : List String) (ref : String), l.length = 10 → ref ∉ l →
      (add_recent_project (.stored l) ref).state
        = .stored (ref :: l.take 9)) := by
  constructor
  · intro s hs
    induction hs with
    | empty => intro l hl; cases hl
    | touch s ref hs ih =>
      intro l hl
      have hl' : (ref :: (loadLenient s).filter (fun p => p ≠ ref)).take 10
          = l := by
        simpa [add_recent_project] using hl
      subst hl'
      have hnd : ((loadLenient s).filter (fun p => p ≠ ref)).Nodup :=
        (loadLenient_inv s ih).2.filter _
      have href : ref ∉ (loadLenient s).filter (fun p => p ≠ ref) := by
        intro hmem
        have := (List.mem_filter.mp hmem).2
        simp at this
      refine ⟨List.length_take_le 10 _, ?_⟩
      exact ((List.nodup_cons.mpr ⟨href, hnd⟩).sublist
        (List.take_sublist 10 _) : _)
    | remove s ref hs ih =>
      intro l hl
      cases s with
      | absent => cases hl
      | corrupt =>
        have hl' : ([] : List String) = l := by
          simpa [remove_recent_project, loadLenient] using hl
        subst hl'
        exact ⟨by simp, List.nodup_nil⟩
      | stored m =>
        have hl' : m.filter (fun p => p ≠ ref) = l := by
          simpa [remove_recent_project, loadLenient] using hl
        subst hl'
        have hm := ih m rfl
        exact ⟨le_trans (List.length_filter_le _ m) hm.1, hm.2.filter _⟩
  · intro l ref hlen href
    show RecentFile.stored ((ref :: l.filter (fun p => p ≠ ref)).take 10) = _
    rw [filter_ne_of_not_mem l ref href]
    rcases l with _ | ⟨a, l⟩
    · simp at hlen
    · simp [List.take_succ_cons]

/-- Witness for C9: the singleton state reached by one Touch satisfies the
invariant, and touching an 11th distinct reference on a concrete full list
of 10 keeps the first 9 old entries behind the new front entry. -/
theorem registry_bound_and_uniqueness_witness :
    ((["a"] : List String).length ≤ 10 ∧ (["a"] : List String).Nodup)
  ∧ (add_recent_project
      (.stored ["p0", "p1", "p2", "p3", "p4", "p5", "p6", "p7", "p8", "p9"])
      "px").state
      = .stored ("px" ::
          ["p0", "p1", "p2", "p3", "p4", "p5", "p6", "p7", "p8", "p9"].take 9) :=
  ⟨registry_bound_and_uniqueness.1 (.stored ["a"])
      (Reachable.touch .absent "a" Reachable.empty) ["a"] rfl,
   registry_bound_and_uniqueness.2
      ["p0", "p1", "p2", "p3", "p4", "p5", "p6", "p7", "p8", "p9"] "px"
      (by decide) (by decide)⟩

/-! ## Document store lemmas -/

/-- A joined child path is never equal to its root (the join appends at
least the separator). -/
theorem joinPath_ne_root (root name : String) : joinPath root name ≠ root := by
  intro e
  have h1 : (joinPath root name).length = root.length := by rw [e]
  rw [joinPath, String.length_append, String.length_append] at h1
  have h2 : ("/" : String).length = 1 := rfl
  omega

/-! ## Claim theorems: document store -/

/-- Claim C6: `WriteDocument` for the Metadata kind (`create_project`) on a
non-existent project root creates the root directory, the adjacent `assets`
subdirectory, and the metadata file `project.json` containing the given
content verbatim, all in one call.  (On a real filesystem no child of a
non-existent directory exists; the model states that consequence for the
assets path as an explicit side condition.) -/
theorem create_project_on_fresh_root (fs : FS) (root content : String)
    (hroot : fs.pathExists root = false)
    (hassets : fs.pathExists (joinPath root "assets") = false) :
    (create_project fs root content).existsDir root = true
  ∧ (create_project fs root content).existsDir (joinPath root "assets") = true
  ∧ (create_project fs root content).readFile (joinPath root PROJECT_FILE)
      = some content := by
  have hassets1 :
      (fs.createDirAll root).pathExists (joinPath root "assets") = false := by
    simp only [FS.pathExists, FS.existsDir, FS.existsFile, FS.createDirAll,
      Bool.or_eq_false_iff, decide_eq_false_iff_not, List.mem_cons] at hassets ⊢
    exact ⟨fun hc => hc.elim (joinPath_ne_root root "assets") hassets.1,
      hassets.2⟩
  have hstep : create_project fs root content
      = ((fs.createDirAll root).createDirAll
          (joinPath root "assets")).writeFile (joinPath root PROJECT_FILE)
          content := by
    rw [create_project, ensure_project_folder, hroot]
    simp only [Bool.false_eq_true, if_false, hassets1]
  rw [hstep]
  refine ⟨?_, ?_, ?_⟩
  · simp [FS.existsDir, FS.writeFile, FS.createDirAll]
  · simp [FS.existsDir, FS.writeFile, FS.createDirAll]
  · simp [FS.readFile, FS.writeFile, List.find?_cons_of_pos]

/-- Witness for C6 on the empty filesystem and root "r". -/
theorem create_project_on_fresh_root_witness :
    (create_project ⟨[], []⟩ "r" "meta").existsDir "r" = true
  ∧ (create_project ⟨[], []⟩ "r" "meta").existsDir (joinPath "r" "assets")
      = true
  ∧ (create_project ⟨[], []⟩ "r" "meta").readFile (joinPath "r" PROJECT_FILE)
      = some "meta" :=
  create_project_on_fresh_root ⟨[], []⟩ "r" "meta" (by decide) (by decide)

end OpenFps
